import Mathlib

/-!
Verification development for the betternotes repository: a shallow embedding
of the note-list/editor controller (`app.js`, class `NotesApp`), the AI
assist service (`ai-service.js`, class `AIService`), the double-Enter
detector, the serverless gateway handlers
(`netlify/functions/improve-text.js` and `improve-text-simple.js`) and the
regex-driven Markdown preprocessing (`preprocessMarkdown`).

Timestamps are modelled as `Nat` (milliseconds). DOM inputs (title field,
editor contents) are passed as explicit arguments. Network calls are
modelled by an explicit outcome argument: the embedded operation takes the
result the remote store or HTTP fetch would deliver and computes the state
transition the JavaScript performs on that result.
-/

/-- JavaScript ASCII whitespace as matched by `\s` and removed by
`String.prototype.trim` (restricted to the ASCII range used throughout
this repository; the full JS class additionally contains Unicode spaces
that never occur in the sources or in the inputs considered here). -/
def isJsWs (c : Char) : Bool :=
  c == ' ' || c == '\t' || c == '\n' || c == '\r' || c == '\x0b' || c == '\x0c'

/-- Embedding of `String.prototype.trim`: drop leading and trailing
whitespace. -/
def jsTrim (s : String) : String :=
  String.mk (((s.data.dropWhile isJsWs).reverse.dropWhile isJsWs).reverse)

/-- Embedding of `String.prototype.toLowerCase` (ASCII). -/
def jsToLower (s : String) : String :=
  String.mk (s.data.map Char.toLower)

/-- Index of the first occurrence of `sub` in `l`
(`String.prototype.indexOf`), `none` when absent. -/
def findSubIdx : List Char → List Char → Option Nat
  | [], sub => if sub.isEmpty then some 0 else none
  | c :: rest, sub =>
    if sub.isPrefixOf (c :: rest) then some 0
    else (findSubIdx rest sub).map (· + 1)

/-- Whether `sub` occurs in `l` (`String.prototype.includes`). -/
def containsSub : List Char → List Char → Bool
  | [], sub => sub.isEmpty
  | c :: rest, sub => sub.isPrefixOf (c :: rest) || containsSub rest sub

/-- JavaScript `a || b` on an optional string field, where both `undefined`
and the empty string are falsy. -/
def jsOrS (a : Option String) (b : String) : String :=
  match a with
  | some s => if s = "" then b else s
  | none => b

/-! ## Data model (app.js / Firestore note documents) -/

/-- A note document: store-assigned `id`, `title`, `content`, and the two
timestamps. `createdAt` and `updatedAt` are server timestamps in the store
and `Date` values locally; both are modelled as `Nat`. -/
structure Note where
  id : String
  title : String
  content : String
  createdAt : Nat
  updatedAt : Nat
deriving DecidableEq, Repr

/-- Which main panel is visible: `showWelcome` hides the editor area and
the delete button, `showEditor` shows them (app.js `showWelcome` /
`showEditor`). -/
inductive ViewState where
  | welcome
  | editor
deriving DecidableEq, Repr

/-- Controller state of `NotesApp` together with the remote store contents:
`notes` is the in-memory array `this.notes`, `currentNoteId` is
`this.currentNoteId`, `store` is the set of note documents held by the
remote store (as a list), `view` the visible panel and `status` the last
`showSaveStatus` message. -/
structure AppState where
  notes : List Note
  currentNoteId : Option String
  store : List Note
  view : ViewState
  status : String
deriving DecidableEq, Repr

/-- The empty controller before any operation. -/
def initialState : AppState :=
  { notes := [], currentNoteId := none, store := [], view := .welcome, status := "" }

/-- Embedding of `loadNotes` (app.js lines 187-213). The store query
`orderBy('updatedAt', 'desc')` is delegated to the backing store, so the
fetched list is an argument; `none` models a rejected promise (the catch
branch only sets the error status, leaving `this.notes` untouched). On
success `this.notes` is replaced by the fetched documents and the welcome
panel is shown when the result is empty. -/
def loadNotes (fetched : Option (List Note)) (s : AppState) : AppState :=
  match fetched with
  | none => { s with status := "Error loading notes" }
  | some l =>
    let s1 := { s with notes := l, status := "" }
    if l.isEmpty then { s1 with view := .welcome } else s1

/-- Embedding of `selectNote` (app.js lines 314-332): a defensive no-op
when the id is not in memory, otherwise it records the selection and shows
the editor (the DOM writes of title and content are not part of the
controller state). -/
def selectNote (noteId : String) (s : AppState) : AppState :=
  match s.notes.find? (fun n => n.id = noteId) with
  | none => s
  | some _ => { s with currentNoteId := some noteId, view := .editor }

/-- Embedding of `createNewNote` (app.js lines 215-248). `ok` is the
outcome of the awaited `db.collection('notes').add`; `newId` the
store-assigned document id, `now` the timestamp. On success the optimistic
local copy is unshifted onto the head of `this.notes` and the new note is
selected; on failure only the status message changes. -/
def createNewNote (now : Nat) (newId : String) (ok : Bool) (s : AppState) : AppState :=
  if ok then
    let newNote : Note :=
      { id := newId, title := "Untitled Note", content := "", createdAt := now, updatedAt := now }
    let s1 := { s with store := s.store ++ [newNote], notes := newNote :: s.notes }
    let s2 := selectNote newId s1
    { s2 with status := "New note created" }
  else { s with status := "Error creating note" }

/-- Embedding of `deleteCurrentNote` (app.js lines 250-273). Returns
unchanged when nothing is selected or the `confirm` dialog is declined.
`ok` is the outcome of the awaited store delete: on failure the catch
branch only sets the error status, so both store and memory are untouched;
on success the document is removed from the store, the local array is
filtered, the welcome panel is shown and the selection is cleared. -/
def deleteCurrentNote (confirmed ok : Bool) (s : AppState) : AppState :=
  match s.currentNoteId with
  | none => s
  | some id =>
    if confirmed then
      if ok then
        { s with
          store := s.store.filter (fun n => n.id != id),
          notes := s.notes.filter (fun n => n.id != id),
          view := .welcome,
          currentNoteId := none,
          status := "Note deleted" }
      else { s with status := "Error deleting note" }
    else s

/-- Update the first list entry whose id matches (the
`findIndex` / in-place assignment pattern of `saveCurrentNote`,
app.js lines 293-298). -/
def updateFirst (id : String) (f : Note → Note) : List Note → List Note
  | [] => []
  | n :: ns => if n.id = id then f n :: ns else n :: updateFirst id f ns

/-- Embedding of `saveCurrentNote` (app.js lines 275-312). No-op when
nothing is selected. The persisted title is
`this.noteTitle.value.trim() || 'Untitled Note'`. `ok` is the outcome of
the awaited store update; on success the store document and the in-memory
entry are updated in place (the entry keeps its list position: the code
assigns through `findIndex` and never re-sorts), on failure only the
status message changes. -/
def saveCurrentNote (now : Nat) (titleInput contentInput : String)
    (isAutoSave ok : Bool) (s : AppState) : AppState :=
  match s.currentNoteId with
  | none => s
  | some id =>
    let title := if jsTrim titleInput = "" then "Untitled Note" else jsTrim titleInput
    if ok then
      let upd := fun (n : Note) =>
        { n with title := title, content := contentInput, updatedAt := now }
      { s with
        store := updateFirst id upd s.store,
        notes := updateFirst id upd s.notes,
        status := if isAutoSave then "Auto-saved" else "Note saved!" }
    else { s with status := "Error saving note" }

/-- The invariant claimed of the in-memory list: `updatedAt` is
non-increasing from head to tail. -/
def sortedByUpdatedAtDesc (l : List Note) : Prop :=
  l.Pairwise (fun a b => b.updatedAt ≤ a.updatedAt)

instance (l : List Note) : Decidable (sortedByUpdatedAtDesc l) :=
  List.instDecidablePairwise l

/-! ## Debounced auto-save (app.js `scheduleAutoSave`, lines 178-185) -/

/-- State of the auto-save machinery: the editor content the save callback
would read, the single pending timer slot (`this.saveTimeout`) as the
absolute time at which it fires, and whether a note is selected (the
callback body is guarded by `if (this.currentNoteId)`). -/
structure AutoSaveState where
  content : String
  pending : Option Nat
  hasCurrentNote : Bool
deriving DecidableEq, Repr

/-- Embedding of `scheduleAutoSave` at time `t`: `clearTimeout` discards
any pending timer and `setTimeout(..., 1000)` installs a single new one
firing at `t + 1000`. -/
def scheduleAutoSave (t : Nat) (s : AutoSaveState) : AutoSaveState :=
  { s with pending := some (t + 1000) }

/-- A keystroke at time `t` updating the editor content to `c`: the input
event handler stores the content and calls `scheduleAutoSave`. -/
def autoSaveEdit (t : Nat) (c : String) (s : AutoSaveState) : AutoSaveState :=
  scheduleAutoSave t { s with content := c }

/-- Run a time-ordered list of edit events on the single-threaded event
loop and collect the persisted writes as `(fire time, content)` pairs. A
pending timer due at or before the next event fires first (reading the
content current at fire time); a timer still pending when the trace ends
fires at its due time. -/
def runAutoSave (s : AutoSaveState) : List (Nat × String) → List (Nat × String)
  | [] =>
    match s.pending with
    | some f => if s.hasCurrentNote then [(f, s.content)] else []
    | none => []
  | (t, c) :: es =>
    match s.pending with
    | some f =>
      if f ≤ t then
        (if s.hasCurrentNote then [(f, s.content)] else []) ++
          runAutoSave (autoSaveEdit t c { s with pending := none }) es
      else runAutoSave (autoSaveEdit t c s) es
    | none => runAutoSave (autoSaveEdit t c s) es

/-! ## AI service (ai-service.js, class `AIService`) -/

/-- The only mutable state of `AIService`: the advisory single-flight flag
`this.isProcessing`. -/
structure AIServiceState where
  isProcessing : Bool
deriving DecidableEq, Repr

/-- Outcome of the awaited `fetch` to the gateway: a parsed JSON body with
the optional `generated_text` and `text` fields, a non-2xx HTTP status
(`!response.ok`), or a network-level failure carrying the thrown message
(a JSON parse failure travels the same rejected-promise path). -/
inductive FetchOutcome where
  | okRes (generated_text : Option String) (textField : Option String)
  | httpError (status : Nat)
  | netFail (msg : String)
deriving DecidableEq, Repr

/-- Result of one `improveText` invocation: the returned value (`Except`
models a thrown error; `Option` models the `null` early return), the list
of texts sent over the network (empty when no request was issued) and the
service state after the call. -/
structure ImproveCallResult where
  value : Except String (Option String)
  requests : List String
  state : AIServiceState
deriving Repr

/-- The instruction prompt built around the cleaned input
(ai-service.js lines 21-25). -/
def improvePrompt (cleanText : String) : String :=
  "Please improve the following text to make it more concise, organized, and better for note-taking. Keep the same meaning but make it clearer and more structured:\n\n"
    ++ cleanText ++ "\n\nImproved version:"

/-- Embedding of `AIService.cleanImprovedText` (ai-service.js lines
61-82): cut everything up to a case-insensitive `improved version:`
marker, drop lines that are empty after lowercasing and trimming or that
contain one of three prompt-echo phrases, rejoin and trim. The
`originalPrompt` parameter is unused, exactly as in the source. -/
def cleanImprovedText (generatedText originalPrompt : String) : String :=
  let cleaned := generatedText
  let cleaned :=
    match findSubIdx (jsToLower cleaned).data "improved version:".data with
    | some i => String.mk (cleaned.data.drop (i + 17))
    | none => cleaned
  let lines := cleaned.splitOn "\n"
  let relevantLines := lines.filter (fun line =>
    let lower := jsTrim (jsToLower line)
    lower != "" &&
      !(containsSub lower.data "please improve".data) &&
      !(containsSub lower.data "following text".data) &&
      !(containsSub lower.data "make it clearer".data))
  jsTrim (String.intercalate "\n" relevantLines)

/-- Embedding of `AIService.improveText` (ai-service.js lines 9-59). The
guard returns `null` immediately when a call is in flight or the trimmed
input is empty — before any network traffic and without touching state.
Otherwise `isProcessing` is set, the prompt is sent, and the `finally`
block clears the flag on every exit path: a successful response yields the
cleaned text, `!response.ok` throws `API request failed: <status>`, and a
network failure rethrows. -/
def improveText (s : AIServiceState) (text : String) (outcome : FetchOutcome) :
    ImproveCallResult :=
  if s.isProcessing || jsTrim text == "" then
    { value := .ok none, requests := [], state := s }
  else
    let cleanText := jsTrim text
    let prompt := improvePrompt cleanText
    match outcome with
    | .netFail msg =>
      { value := .error msg, requests := [prompt], state := { isProcessing := false } }
    | .httpError st =>
      { value := .error ("API request failed: " ++ toString st),
        requests := [prompt], state := { isProcessing := false } }
    | .okRes g t =>
      let improvedRaw := jsOrS g (jsOrS t "")
      { value := .ok (some (cleanImprovedText improvedRaw prompt)),
        requests := [prompt], state := { isProcessing := false } }

/-- Embedding of `AIService.isAvailable` (ai-service.js lines 84-86). -/
def isAvailable (s : AIServiceState) : Bool :=
  !s.isProcessing

/-! ## Double-Enter detection (app.js `addDoubleEnterDetection`, lines 69-91) -/

/-- Observable effect of one Enter keydown: whether the AI assist flow was
triggered, whether `preventDefault` was called (suppressing the newline),
and the new value of the closure variable `lastEnterTime`. -/
structure EnterPressResult where
  aiTriggered : Bool
  defaultPrevented : Bool
  lastEnterTime : Nat
deriving DecidableEq, Repr

/-- Embedding of the Enter branch of the keydown listener: with
`timeDiff = now - lastEnterTime`, a double press is recognized when
`timeDiff < 800 && timeDiff > 50`; then `preventDefault` runs, the AI flow
starts and the timer resets to 0. Otherwise nothing is suppressed (the
newline is inserted by the default action) and `lastEnterTime := now`. -/
def enterKeydown (lastEnterTime now : Nat) : EnterPressResult :=
  let timeDiff := now - lastEnterTime
  if timeDiff < 800 && timeDiff > 50 then
    { aiTriggered := true, defaultPrevented := true, lastEnterTime := 0 }
  else
    { aiTriggered := false, defaultPrevented := false, lastEnterTime := now }

/-! ## Gateway handlers (netlify/functions) -/

/-- Response body of a gateway reply: the empty body of the preflight
answer, a JSON object with `error` (and optional `details`) fields, or a
success body carrying `generated_text`. -/
inductive GwRespBody where
  | empty
  | errJson (error : String) (details : Option String)
  | okJson (generated_text : String)
deriving DecidableEq, Repr

/-- What the handler does before contacting the upstream model: either a
final response, or it proceeds to the upstream fetch (whose result depends
on the network and is outside the scope of the request-validation
claims). -/
inductive GwStep where
  | respond (statusCode : Nat) (body : GwRespBody)
  | callUpstream
deriving DecidableEq, Repr

/-- Embedding of `exports.handler` of `improve-text.js` (lines 4-102) up
to the upstream call. `parsedBody` is `none` when `JSON.parse(event.body)`
throws (the outer catch then answers 500 with an `error` field whose
`details` carries the exception message, abstracted here); otherwise it
holds the optional `text` field. `apiKey` is
`process.env.GOOGLE_AI_STUDIO_API_KEY`. The falsy check
`!text || text.trim() === ''` rejects a missing, empty or whitespace-only
text with 400. -/
def improveTextHandler (method : String) (parsedBody : Option (Option String))
    (apiKey : Option String) : GwStep :=
  if method = "OPTIONS" then .respond 200 .empty
  else if method ≠ "POST" then .respond 405 (.errJson "Method not allowed" none)
  else
    match parsedBody with
    | none => .respond 500 (.errJson "Internal server error" none)
    | some textField =>
      match textField with
      | none => .respond 400 (.errJson "Text is required" none)
      | some t =>
        if jsTrim t = "" then .respond 400 (.errJson "Text is required" none)
        else if t = "test" then .respond 200 (.okJson "Gemini test successful!")
        else
          match apiKey with
          | none =>
            .respond 500 (.errJson "AI service configuration error"
              (some "GOOGLE_AI_STUDIO_API_KEY environment variable not set"))
          | some _ => .callUpstream

/-- Embedding of `exports.handler` of `improve-text-simple.js` (lines
2-58) up to the upstream call, with the same conventions; `hfToken` is
`process.env.HUGGING_FACE_TOKEN`. -/
def improveTextSimpleHandler (method : String) (parsedBody : Option (Option String))
    (hfToken : Option String) : GwStep :=
  if method = "OPTIONS" then .respond 200 .empty
  else if method ≠ "POST" then .respond 405 (.errJson "Method not allowed" none)
  else
    match parsedBody with
    | none => .respond 500 (.errJson "Internal error" none)
    | some textField =>
      match textField with
      | none => .respond 400 (.errJson "Text is required" none)
      | some t =>
        if jsTrim t = "" then .respond 400 (.errJson "Text is required" none)
        else if t = "test" then
          .respond 200 (.okJson "Simple test successful - function working")
        else
          match hfToken with
          | none => .respond 500 (.errJson "HF token not configured" none)
          | some _ => .callUpstream

/-! ## Markdown preprocessing (app.js `preprocessMarkdown`, lines 761-780)

The five chained `String.replace` calls are embedded as left-to-right
scans that mirror the JavaScript regex engine on the constructs these
patterns use: greedy quantifiers with backtracking, `\s` matching
newlines, `.` excluding line terminators, the multiline `^`/`$` anchors,
negative lookahead, and resumption of the global scan at the end of each
match. Line starts are positions following a `'\n'` (the sources and
inputs considered contain no `'\r'`). -/

/-- Generic global-replace scan: at each position the matcher may consume
a nonempty prefix and produce its replacement together with the
line-start flag for the resumption point; otherwise the character is
copied. Fuel is the input length (every match consumes at least one
character). -/
def scanRepl (m : Bool → List Char → Option (List Char × Bool × List Char)) :
    Nat → Bool → List Char → List Char
  | 0, _, s => s
  | _ + 1, _, [] => []
  | fuel + 1, atStart, c :: rest =>
    match m atStart (c :: rest) with
    | some (repl, nextStart, rest2) => repl ++ scanRepl m fuel nextStart rest2
    | none => c :: scanRepl m fuel (c == '\n') rest

/-- Run one replace pass over a string. -/
def runPass (m : Bool → List Char → Option (List Char × Bool × List Char))
    (s : List Char) : List Char :=
  scanRepl m s.length true s

/-- Largest `p` not exceeding the given bound such that the character of
`rest0` at position `p` exists and is not a newline: the backtracking of a
greedy `\s*` followed by `.+` (which needs a non-newline character to
start on). -/
def findTextStart (rest0 : List Char) : Nat → Option Nat
  | 0 =>
    match rest0.head? with
    | some c => if c ≠ '\n' then some 0 else none
    | none => none
  | p + 1 =>
    match (rest0.drop (p + 1)).head? with
    | some c => if c ≠ '\n' then some (p + 1) else findTextStart rest0 p
    | none => findTextStart rest0 p

/-- Matcher core of `/^(#{1,6})\s*(.+)$/gm → '$1 $2\n'` for a given count
`k` of consumed hashes, trying `k` downward (greedy `#{1,6}` with
backtracking). After the hashes, `\s*` is greedy (and may span newlines)
and backtracks until `.+` can start; `.+` then runs to the end of the
line, where `$` holds. -/
def step1TryK (s : List Char) : Nat → Option (List Char × Bool × List Char)
  | 0 => none
  | k + 1 =>
    let rest0 := s.drop (k + 1)
    let wl := (rest0.takeWhile isJsWs).length
    match findTextStart rest0 wl with
    | some p =>
      let text := (rest0.drop p).takeWhile (fun c => c != '\n' && c != '\r')
      some (List.replicate (k + 1) '#' ++ ' ' :: (text ++ ['\n']),
            false,
            rest0.drop (p + text.length))
    | none => step1TryK s k

/-- Pass 1 matcher: header spacing, anchored at line starts. -/
def step1Match (atStart : Bool) (s : List Char) :
    Option (List Char × Bool × List Char) :=
  if atStart then
    let n := (s.takeWhile (fun c => c == '#')).length
    if n = 0 then none else step1TryK s (min n 6)
  else none

/-- Pass 2 matcher: `/([^\n])\s*(-\s*)/g → '$1\n\n$2'`. The first `\s*`
is greedy; since a dash is not whitespace, only the full whitespace run
can be followed by the required `-`, so no shorter extent can match. The
trailing `\s*` of group 2 is greedy with nothing after it. -/
def step2Match (_atStart : Bool) (s : List Char) :
    Option (List Char × Bool × List Char) :=
  match s with
  | [] => none
  | c :: rest =>
    if c = '\n' then none
    else
      let w := rest.takeWhile isJsWs
      match rest.drop w.length with
      | '-' :: rest2 =>
        let w2 := rest2.takeWhile isJsWs
        some (c :: '\n' :: '\n' :: '-' :: w2,
              w2.getLast? == some '\n',
              rest2.drop w2.length)
      | _ => none

/-- Matcher core of pass 3 for fixed extents of the leading `\s*` (`a`
given-back positions of `rest`): try the greedy `[^-\n]+` length `bl`
downward; after it, `\s+` must be nonempty (greedy, and only the full run
can precede the required `-`), then `-` and a trailing greedy `\s*`. -/
def step3TryBl (s restA : List Char) (a : Nat) :
    Nat → Option (List Char × Bool × List Char)
  | 0 => none
  | bl + 1 =>
    let restB := restA.drop (bl + 1)
    let u := restB.takeWhile isJsWs
    if u.isEmpty then step3TryBl s restA a bl
    else
      match restB.drop u.length with
      | '-' :: restD =>
        let w2 := restD.takeWhile isJsWs
        some (s.take (1 + a + (bl + 1)) ++ '\n' :: '-' :: w2,
              w2.getLast? == some '\n',
              restD.drop w2.length)
      | _ => step3TryBl s restA a bl

/-- Pass 3 at a fixed `\s*` extent `a`: compute the maximal `[^-\n]+` run
from there and try its lengths downward. -/
def step3AtA (s rest : List Char) (a : Nat) :
    Option (List Char × Bool × List Char) :=
  let restA := rest.drop a
  let body := restA.takeWhile (fun c => c != '-' && c != '\n')
  step3TryBl s restA a body.length

/-- Try the leading `\s*` extents of pass 3 from the greedy maximum
downward. -/
def step3TryA (s rest : List Char) : Nat → Option (List Char × Bool × List Char)
  | 0 => step3AtA s rest 0
  | a + 1 =>
    match step3AtA s rest (a + 1) with
    | some r => some r
    | none => step3TryA s rest a

/-- Pass 3 matcher: `/(-\s*[^-\n]+)\s+(-\s*)/g → '$1\n$2'`, anchored
nowhere, beginning with a literal `-`. -/
def step3Match (_atStart : Bool) (s : List Char) :
    Option (List Char × Bool × List Char) :=
  match s with
  | '-' :: rest => step3TryA s rest (rest.takeWhile isJsWs).length
  | _ => none

/-- Matcher core of pass 4 for a fixed prefix length `pre` (hashes plus
`\s*` extent): try the greedy `.+` lengths `tl` downward until the
negative lookahead `(?!\n\n)` holds at the match end. -/
def step4TryTl (s rest1 : List Char) (pre : Nat) :
    Nat → Option (List Char × Bool × List Char)
  | 0 => none
  | tl + 1 =>
    let after := rest1.drop (tl + 1)
    match after with
    | '\n' :: '\n' :: _ => step4TryTl s rest1 pre tl
    | _ => some (s.take (pre + (tl + 1)) ++ ['\n'], false, after)

/-- Pass 4 at a fixed `\s*` extent `q` after `k` hashes. -/
def step4AtQ (s rest0 : List Char) (k q : Nat) :
    Option (List Char × Bool × List Char) :=
  let rest1 := rest0.drop q
  let t := rest1.takeWhile (fun c => c != '\n' && c != '\r')
  step4TryTl s rest1 (k + q) t.length

/-- Try the `\s*` extents of pass 4 from the greedy maximum downward. -/
def step4TryQ (s rest0 : List Char) (k : Nat) :
    Nat → Option (List Char × Bool × List Char)
  | 0 => step4AtQ s rest0 k 0
  | q + 1 =>
    match step4AtQ s rest0 k (q + 1) with
    | some r => some r
    | none => step4TryQ s rest0 k q

/-- Try the hash counts of pass 4 from `min run 6` downward. -/
def step4TryK (s : List Char) : Nat → Option (List Char × Bool × List Char)
  | 0 => none
  | k + 1 =>
    let rest0 := s.drop (k + 1)
    let wl := (rest0.takeWhile isJsWs).length
    match step4TryQ s rest0 (k + 1) wl with
    | some r => some r
    | none => step4TryK s k

/-- Pass 4 matcher: `/^(#{1,6}\s*.+)(?!\n\n)/gm → '$1\n'`, anchored at
line starts. The greedy `.+` backtracks through the negative lookahead:
when the header line is followed by a blank line, the match ends one
character early, splitting the last header character off. -/
def step4Match (atStart : Bool) (s : List Char) :
    Option (List Char × Bool × List Char) :=
  if atStart then
    let n := (s.takeWhile (fun c => c == '#')).length
    if n = 0 then none else step4TryK s (min n 6)
  else none

/-- Pass 5 matcher: `/\n{4,}/g → '\n\n\n'`, collapsing maximal newline
runs of length at least four. -/
def step5Match (_atStart : Bool) (s : List Char) :
    Option (List Char × Bool × List Char) :=
  match s with
  | '\n' :: _ =>
    let r := s.takeWhile (fun c => c == '\n')
    if 4 ≤ r.length then some (['\n', '\n', '\n'], true, s.drop r.length)
    else none
  | _ => none

/-- Embedding of `preprocessMarkdown` (app.js lines 761-780): the five
regex replaces in source order. -/
def preprocessMarkdown (content : String) : String :=
  let p1 := runPass step1Match content.data
  let p2 := runPass step2Match p1
  let p3 := runPass step3Match p2
  let p4 := runPass step4Match p3
  let p5 := runPass step5Match p4
  String.mk p5

/-! ## Concrete sample states used by witness theorems -/

/-- A note used in concrete witness scenarios. -/
def sampleNote : Note :=
  { id := "x", title := "old", content := "c", createdAt := 0, updatedAt := 1 }

/-- A controller state with one note selected. -/
def sampleState : AppState :=
  { notes := [sampleNote], currentNoteId := some "x", store := [sampleNote],
    view := .editor, status := "" }

/-! ## Theorems -/

/-- Helper: every element of a filtered list satisfies the filter
predicate. -/
theorem filter_all_self {α : Type} (p : α → Bool) (l : List α) :
    (l.filter p).all p = true := by
  rw [List.all_eq_true]
  intro a ha
  exact List.of_mem_filter ha

/-- Helper: a successful `createNewNote` places the fresh note at the
head of the in-memory list. -/
theorem createNewNote_notes_eq (now : Nat) (newId : String) (s : AppState) :
    (createNewNote now newId true s).notes =
      { id := newId, title := "Untitled Note", content := "", createdAt := now,
        updatedAt := now } :: s.notes := by
  unfold createNewNote selectNote
  simp only [if_pos]
  split <;> rfl

/-- Helper: when some element of `l` has the given id, `updateFirst`
rewrites one such element with `f` and keeps it in the list. -/
theorem updateFirst_exists (id : String) (f : Note → Note)
    (hf : ∀ n, (f n).id = n.id) :
    ∀ l : List Note, (∃ n, n ∈ l ∧ n.id = id) →
      ∃ n, n ∈ updateFirst id f l ∧ n.id = id ∧ ∃ m, m ∈ l ∧ n = f m := by
  intro l
  induction l with
  | nil =>
    rintro ⟨n, hn, _⟩
    exact absurd hn (List.not_mem_nil n)
  | cons a as ih =>
    rintro ⟨n, hn, hid⟩
    by_cases ha : a.id = id
    · refine ⟨f a, ?_, ?_, a, List.mem_cons_self a as, rfl⟩
      · simp [updateFirst, ha]
      · rw [hf]; exact ha
    · have hn' : n ∈ as := by
        rcases List.mem_cons.mp hn with rfl | hmem
        · exact absurd hid ha
        · exact hmem
      obtain ⟨n', hmem', hid', m, hm, heq⟩ := ih ⟨n, hn', hid⟩
      refine ⟨n', ?_, hid', m, List.mem_cons_of_mem a hm, heq⟩
      simp [updateFirst, ha]
      exact Or.inr hmem'

/-- Claim C1 (counterexample): a concrete successful operation sequence —
create note `b`, create note `a`, select `b`, save `b` — starts from a
list sorted by `updatedAt` descending and ends with one that is not:
`saveCurrentNote` rewrites the entry in place and never re-sorts, so the
freshly saved note keeps its old position below notes with older
timestamps. -/
theorem claim1_sorted_counterexample :
    sortedByUpdatedAtDesc
      (selectNote "b" (createNewNote 2 "a" true (createNewNote 1 "b" true
        initialState))).notes ∧
    ¬ sortedByUpdatedAtDesc
      (saveCurrentNote 3 "Second" "hello" true true
        (selectNote "b" (createNewNote 2 "a" true (createNewNote 1 "b" true
          initialState)))).notes := by
  decide

/-- Claim C1 (amended): the in-memory list is sorted by `updatedAt`
descending after a successful initial load (the store delivers the list
already sorted), after a successful `createNewNote` (the fresh timestamp
is at least every existing one, and the note is unshifted onto the head),
and after any `deleteCurrentNote` (filtering preserves order) — but not
after `saveCurrentNote`, which updates the entry in place without
re-sorting. -/
theorem claim1_sorted_amended (s : AppState) (l : List Note) (now : Nat)
    (newId : String) :
    (sortedByUpdatedAtDesc l → sortedByUpdatedAtDesc (loadNotes (some l) s).notes) ∧
    (sortedByUpdatedAtDesc s.notes → (∀ n ∈ s.notes, n.updatedAt ≤ now) →
      sortedByUpdatedAtDesc (createNewNote now newId true s).notes) ∧
    (∀ confirmed ok : Bool, sortedByUpdatedAtDesc s.notes →
      sortedByUpdatedAtDesc (deleteCurrentNote confirmed ok s).notes) := by
  refine ⟨?_, ?_, ?_⟩
  · intro h
    unfold loadNotes
    by_cases he : l.isEmpty <;> simp [he] <;> exact h
  · intro h1 h2
    rw [sortedByUpdatedAtDesc, createNewNote_notes_eq, List.pairwise_cons]
    exact ⟨fun b hb => h2 b hb, h1⟩
  · intro confirmed ok h
    unfold deleteCurrentNote
    cases hc : s.currentNoteId with
    | none => exact h
    | some id =>
      by_cases hcf : confirmed
      · by_cases hok : ok
        · simp only [hcf, hok, if_true]
          exact h.sublist (List.filter_sublist s.notes)
        · simp only [hcf, hok, if_true, if_false]
          exact h
      · simp only [hcf, if_false]
        exact h

/-- Claim C1 (witness): the amended preservation statements evaluated on
concrete inputs. -/
theorem claim1_sorted_amended_witness :
    sortedByUpdatedAtDesc
      (loadNotes (some [{ id := "a", title := "t", content := "", createdAt := 0,
                          updatedAt := 5 },
                        { id := "b", title := "t", content := "", createdAt := 0,
                          updatedAt := 3 }]) initialState).notes ∧
    sortedByUpdatedAtDesc (createNewNote 9 "c" true sampleState).notes ∧
    sortedByUpdatedAtDesc (deleteCurrentNote true true sampleState).notes := by
  obtain ⟨h1, h2, h3⟩ :=
    claim1_sorted_amended sampleState
      [{ id := "a", title := "t", content := "", createdAt := 0, updatedAt := 5 },
       { id := "b", title := "t", content := "", createdAt := 0, updatedAt := 3 }]
      9 "c"
  refine ⟨?_, h2 (by decide) (by decide), h3 true true (by decide)⟩
  obtain ⟨h1', _, _⟩ :=
    claim1_sorted_amended initialState
      [{ id := "a", title := "t", content := "", createdAt := 0, updatedAt := 5 },
       { id := "b", title := "t", content := "", createdAt := 0, updatedAt := 3 }]
      9 "c"
  exact h1' (by decide)

/-- Claim C2 (code bug, evaluation): on the canonical block-form input
`"# Title\n\ntext"` the first normalization pass already splits the last
header character onto its own line, and a second pass splits another one,
so the second pass does not reproduce the first pass output. The header
pass `/^(#{1,6}\s*.+)(?!\n\n)/gm` lets the greedy `.+` backtrack through
the negative lookahead, contradicting the adjacent source comment that it
should only ensure line breaks after headers. -/
theorem claim2_second_pass_differs :
    preprocessMarkdown "# Title\n\ntext" = "# Titl\ne\n\n\ntext" ∧
    preprocessMarkdown (preprocessMarkdown "# Title\n\ntext") =
      "# Tit\nl\n\ne\n\n\ntext" ∧
    preprocessMarkdown (preprocessMarkdown "# Title\n\ntext") ≠
      preprocessMarkdown "# Title\n\ntext" := by
  refine ⟨by decide, by decide, by decide⟩

/-- Claim C3: two edits within the debounce window produce exactly one
persisted write, at 1000ms after the second edit, carrying the second
edit content; the first scheduled save is cancelled by `clearTimeout` and
never fires (trailing-edge debounce). -/
theorem claim3_debounce_single_write (c0 c1 c2 : String) (t1 t2 : Nat)
    (h1 : t1 ≤ t2) (h2 : t2 < t1 + 1000) :
    runAutoSave { content := c0, pending := none, hasCurrentNote := true }
        [(t1, c1), (t2, c2)] = [(t2 + 1000, c2)] := by
  have hn : ¬ (t1 + 1000 ≤ t2) := by omega
  simp [runAutoSave, autoSaveEdit, scheduleAutoSave, hn]

/-- Claim C3 (witness): concrete trace with edits at 0ms and 500ms. -/
theorem claim3_debounce_single_write_witness :
    runAutoSave { content := "", pending := none, hasCurrentNote := true }
        [(0, "a"), (500, "b")] = [(1500, "b")] :=
  claim3_debounce_single_write "" "a" "b" 0 500 (by decide) (by decide)

/-- Claim C4: with a note selected, a failed store delete leaves both the
store and the in-memory list (and only the status message changed, to the
delete error); a successful delete removes the note from both store and
memory, so no state has it in exactly one of the two. -/
theorem claim4_delete_atomic (s : AppState) (id : String)
    (h : s.currentNoteId = some id) :
    ((deleteCurrentNote true false s).store = s.store ∧
      (deleteCurrentNote true false s).notes = s.notes ∧
      (deleteCurrentNote true false s).status = "Error deleting note") ∧
    ((deleteCurrentNote true true s).store.all (fun n => n.id != id) = true ∧
      (deleteCurrentNote true true s).notes.all (fun n => n.id != id) = true) := by
  unfold deleteCurrentNote
  rw [h]
  refine ⟨⟨rfl, rfl, rfl⟩, ?_, ?_⟩ <;> exact filter_all_self _ _

/-- Claim C4 (witness): the atomicity statements evaluated on a concrete
selected state. -/
theorem claim4_delete_atomic_witness :
    ((deleteCurrentNote true false sampleState).store = sampleState.store ∧
      (deleteCurrentNote true false sampleState).notes = sampleState.notes ∧
      (deleteCurrentNote true false sampleState).status = "Error deleting note") ∧
    ((deleteCurrentNote true true sampleState).store.all (fun n => n.id != "x") = true ∧
      (deleteCurrentNote true true sampleState).notes.all (fun n => n.id != "x") = true) :=
  claim4_delete_atomic sampleState "x" rfl

/-- Claim C5: when a prior call is outstanding (`isProcessing`) or the
input trims to the empty string, `improveText` returns `null` at once:
no request is sent and the service state is unchanged. -/
theorem claim5_guard_no_request (s : AIServiceState) (text : String)
    (outcome : FetchOutcome)
    (h : s.isProcessing = true ∨ jsTrim text = "") :
    improveText s text outcome =
      { value := .ok none, requests := [], state := s } := by
  have hb : (s.isProcessing || jsTrim text == "") = true := by
    rcases h with h | h <;> simp [h]
  simp [improveText, hb]

/-- Claim C5 (witness): the whitespace-only input `"   "` on an idle
service. -/
theorem claim5_guard_no_request_witness :
    improveText { isProcessing := false } "   " (.netFail "boom") =
      { value := .ok none, requests := [],
        state := { isProcessing := false } } :=
  claim5_guard_no_request _ _ _ (Or.inr (by decide))

/-- Claim C6: a successful delete of the selected note clears the
selection and shows the welcome panel; when nothing is selected — the only
way a delete could concern a non-selected note, since `deleteCurrentNote`
always targets the selection — the operation is a complete no-op and the
selection is unchanged. -/
theorem claim6_delete_selection (s : AppState) (id : String) :
    (s.currentNoteId = some id →
      (deleteCurrentNote true true s).currentNoteId = none ∧
      (deleteCurrentNote true true s).view = .welcome) ∧
    (s.currentNoteId = none →
      ∀ confirmed ok : Bool, deleteCurrentNote confirmed ok s = s) := by
  constructor
  · intro h
    unfold deleteCurrentNote
    rw [h]
    exact ⟨rfl, rfl⟩
  · intro h confirmed ok
    unfold deleteCurrentNote
    rw [h]

/-- Claim C6 (witness): both branches evaluated on concrete states. -/
theorem claim6_delete_selection_witness :
    ((deleteCurrentNote true true sampleState).currentNoteId = none ∧
      (deleteCurrentNote true true sampleState).view = .welcome) ∧
    deleteCurrentNote false false initialState = initialState :=
  ⟨(claim6_delete_selection sampleState "x").1 rfl,
   (claim6_delete_selection initialState "x").2 rfl false false⟩

/-- Claim C7: an Enter keypress triggers the AI flow exactly when the
time since the recorded previous Enter is strictly between 50ms and
800ms; the default newline is suppressed exactly in that case, and the
recorded time resets to 0 on a trigger and to the current time
otherwise. -/
theorem claim7_double_enter_window (t now : Nat) :
    ((enterKeydown t now).aiTriggered = true ↔
      (50 < now - t ∧ now - t < 800)) ∧
    (enterKeydown t now).defaultPrevented = (enterKeydown t now).aiTriggered ∧
    (enterKeydown t now).lastEnterTime =
      (if 50 < now - t ∧ now - t < 800 then 0 else now) := by
  unfold enterKeydown
  simp only [Bool.and_eq_true, decide_eq_true_eq, gt_iff_lt]
  by_cases h : 50 < now - t ∧ now - t < 800
  · rw [if_pos ⟨h.2, h.1⟩, if_pos h]
    simp [h]
  · have h' : ¬ (now - t < 800 ∧ 50 < now - t) := fun hc => h ⟨hc.2, hc.1⟩
    rw [if_neg h', if_neg h]
    simp [h]

/-- Claim C8: both gateway handlers answer OPTIONS with 200 and an empty
body; any method other than POST or OPTIONS with 405 and a JSON error
body; and a POST whose body lacks a text field or whose text trims to the
empty string with 400 and a JSON error body. -/
theorem claim8_gateway_contract (method : String) (pb : Option (Option String))
    (key tok : Option String) :
    (improveTextHandler "OPTIONS" pb key = .respond 200 .empty ∧
      improveTextSimpleHandler "OPTIONS" pb tok = .respond 200 .empty) ∧
    (method ≠ "OPTIONS" → method ≠ "POST" →
      (improveTextHandler method pb key =
        .respond 405 (.errJson "Method not allowed" none) ∧
       improveTextSimpleHandler method pb tok =
        .respond 405 (.errJson "Method not allowed" none))) ∧
    (∀ t : Option String, (t = none ∨ ∃ u, t = some u ∧ jsTrim u = "") →
      (improveTextHandler "POST" (some t) key =
        .respond 400 (.errJson "Text is required" none) ∧
       improveTextSimpleHandler "POST" (some t) tok =
        .respond 400 (.errJson "Text is required" none))) := by
  refine ⟨⟨?_, ?_⟩, ?_, ?_⟩
  · simp [improveTextHandler]
  · simp [improveTextSimpleHandler]
  · intro h1 h2
    constructor <;>
      simp [improveTextHandler, improveTextSimpleHandler, h1, h2]
  · rintro t ht
    rcases ht with rfl | ⟨u, rfl, hu⟩
    · constructor <;> simp [improveTextHandler, improveTextSimpleHandler]
    · constructor <;> simp [improveTextHandler, improveTextSimpleHandler, hu]

/-- Claim C8 (witness): concrete requests — a preflight, a GET, and a
POST with whitespace-only text. -/
theorem claim8_gateway_contract_witness :
    improveTextHandler "OPTIONS" (some (some "hi")) none = .respond 200 .empty ∧
    improveTextHandler "GET" (some (some "hi")) none =
      .respond 405 (.errJson "Method not allowed" none) ∧
    improveTextSimpleHandler "GET" (some (some "hi")) none =
      .respond 405 (.errJson "Method not allowed" none) ∧
    improveTextHandler "POST" (some (some "   ")) none =
      .respond 400 (.errJson "Text is required" none) := by
  have h := claim8_gateway_contract "GET" (some (some "hi")) none none
  exact ⟨h.1.1, (h.2.1 (by decide) (by decide)).1,
    (h.2.1 (by decide) (by decide)).2,
    (h.2.2 (some "   ") (Or.inr ⟨"   ", rfl, by decide⟩)).1⟩

/-- Claim C9: a successful save persists the trimmed title, falling back
to `Untitled Note` when the trim is empty, so the updated in-memory note
carries a non-empty title; `createNewNote` puts a note titled `Untitled
Note` at the head, which is likewise non-empty. -/
theorem claim9_title_normalized (s : AppState) (id : String) (now : Nat)
    (titleInput contentInput : String) (auto : Bool) (newId : String)
    (h : s.currentNoteId = some id)
    (hmem : ∃ n, n ∈ s.notes ∧ n.id = id) :
    (∃ n, n ∈ (saveCurrentNote now titleInput contentInput auto true s).notes ∧
      n.id = id ∧
      n.title =
        (if jsTrim titleInput = "" then "Untitled Note" else jsTrim titleInput) ∧
      n.title ≠ "") ∧
    ((createNewNote now newId true s).notes.head? =
      some { id := newId, title := "Untitled Note", content := "",
             createdAt := now, updatedAt := now } ∧
      ({ id := newId, title := "Untitled Note", content := "",
         createdAt := now, updatedAt := now } : Note).title ≠ "") := by
  constructor
  · have hsn : (saveCurrentNote now titleInput contentInput auto true s).notes =
        updateFirst id
          (fun n => { n with
            title := if jsTrim titleInput = "" then "Untitled Note"
                     else jsTrim titleInput,
            content := contentInput, updatedAt := now }) s.notes := by
      unfold saveCurrentNote
      rw [h]
      rfl
    obtain ⟨n, hmem2, hid2, m, hm, heq⟩ :=
      updateFirst_exists id
        (fun n => { n with
          title := if jsTrim titleInput = "" then "Untitled Note"
                   else jsTrim titleInput,
          content := contentInput, updatedAt := now })
        (fun n => rfl) s.notes hmem
    refine ⟨n, by rw [hsn]; exact hmem2, hid2, by rw [heq], ?_⟩
    rw [heq]
    by_cases hc : jsTrim titleInput = ""
    · simp [hc]
    · simp [hc]
  · exact ⟨by rw [createNewNote_notes_eq]; rfl, by simp⟩

/-- Claim C9 (witness): saving with the padded title `"  My Note  "` on a
concrete selected state, and creating a note. -/
theorem claim9_title_normalized_witness :
    (∃ n, n ∈ (saveCurrentNote 5 "  My Note  " "body" true true sampleState).notes ∧
      n.id = "x" ∧
      n.title =
        (if jsTrim "  My Note  " = "" then "Untitled Note"
         else jsTrim "  My Note  ") ∧
      n.title ≠ "") ∧
    ((createNewNote 5 "n2" true sampleState).notes.head? =
      some { id := "n2", title := "Untitled Note", content := "",
             createdAt := 5, updatedAt := 5 } ∧
      ({ id := "n2", title := "Untitled Note", content := "",
         createdAt := 5, updatedAt := 5 } : Note).title ≠ "") :=
  claim9_title_normalized sampleState "x" 5 "  My Note  " "body" true "n2"
    rfl ⟨sampleNote, by decide, rfl⟩

/-- Claim C10: starting from an idle service, every completed
`improveText` invocation — returning a value or propagating an error, on
any fetch outcome — leaves `isProcessing` false (the `finally` block
clears it on every exit path), so `isAvailable` holds again. -/
theorem claim10_processing_reset (text : String) (outcome : FetchOutcome) :
    isAvailable (improveText { isProcessing := false } text outcome).state = true := by
  unfold improveText
  split
  · rfl
  · cases outcome <;> rfl
